import Mathlib

/-!
Verification of the talent-outreach lead-generation pipeline.

The repository has three Python script variants:
  * `talent-outreach.py` — filtering pipeline, appends to a spreadsheet sink;
  * `talent_engine.py`   — same extraction/filtering, two-phase (collect then append);
  * `vp_scraper.py`      — an early variant with no filtering and no exception handling.

This file shallowly embeds the row values, the row normalizer
(`extract_clean_value`), the title classifier (`is_target_title`), the message
templater (`generate_message` and the one-argument `vp_generate_message`), the
Hunter.io domain-search strategy, and the three pipeline drivers, and proves the
spec claims about them.  External collaborators (the spreadsheet sink, the
Hunter.io HTTP call, the GitHub email miner) are modelled as oracle parameters:
a `sink` function deciding whether an append raises, a `svc` function giving
the parsed lookup response, a `gh` function giving the mined email.
-/

namespace TalentOutreach

/-- A raw cell value as seen through pandas.  `pyNone` is Python `None` (also
what `Series.get` yields for a missing column), `nan` is a float NaN
(`pd.isna`-positive), `str` is any value whose `str()` form is the given
string, and `bad` is a value whose `str()` conversion raises (the
`except: continue` branch of `extract_clean_value`). -/
inductive Cell where
  | pyNone : Cell
  | nan : Cell
  | str : String → Cell
  | bad : Cell
deriving DecidableEq

/-- One CSV row: an association list from column name to cell value,
modelling a pandas Series with its index. -/
def Row := List (String × Cell)

/-- Python truthiness of a cell: `None` is falsy, a float NaN is truthy,
a string is truthy iff non-empty, any other object is truthy. -/
def cellTruthy : Cell → Bool
  | Cell.pyNone => false
  | Cell.nan => true
  | Cell.str s => s != ""
  | Cell.bad => true

/-- Python `str(raw)` for a cell; `none` models a raised conversion exception. -/
def pyStr? : Cell → Option String
  | Cell.pyNone => some "None"
  | Cell.nan => some "nan"
  | Cell.str s => some s
  | Cell.bad => none

/-- Lookup `col_name in row.index` followed by `row[col_name]` (first occurrence). -/
def lookupCell (row : Row) (c : String) : Option Cell :=
  (List.find? (fun p => p.1 == c) row).map (fun p => p.2)

/-- Pandas `row.get(col)` on a Series: `None` when the column is absent. -/
def getCellD (row : Row) (c : String) : Cell :=
  (lookupCell row c).getD Cell.pyNone

/-- Python `a or b` on two cell values (first truthy wins). -/
def pyOrCell (a b : Cell) : Cell :=
  if cellTruthy a then a else b

/-- Python `str.lower()` (ASCII range, which is all the sources use). -/
def pyLower (s : String) : String := String.mk (s.toList.map Char.toLower)

/-- Leading/trailing-whitespace removal on a character list. -/
def stripList (l : List Char) : List Char :=
  ((List.dropWhile Char.isWhitespace l).reverse.dropWhile Char.isWhitespace).reverse

/-- Python `str.strip()`. -/
def pyStrip (s : String) : String := String.mk (stripList s.toList)

/-- Test `pat.isPrefixOf` at some position of the list: Python `pat in s`. -/
def listHasSub (pat : List Char) : List Char → Bool
  | [] => pat.isEmpty
  | c :: cs => pat.isPrefixOf (c :: cs) || listHasSub pat cs

/-- Python substring containment `pat in s`. -/
def strIncl (s pat : String) : Bool := listHasSub pat.toList s.toList

/-- Python `s.startswith(pre)`. -/
def pyStartswith (s pre : String) : Bool := pre.toList.isPrefixOf s.toList

/-- The sentinel list of `extract_clean_value`:
`['nan', 'none', 'null', '']`. -/
def sentinelStrings : List String := ["nan", "none", "null", ""]

/-- Function `extract_clean_value(row, column_names)` from `talent-outreach.py` lines
23-48 and `talent_engine.py` lines 34-56 (identical bodies): walk the
candidate column names in order; skip absent columns, `None`, NaN and
conversion failures; stringify, strip, and return the first value that is
non-empty and whose lower-casing is not a sentinel. -/
def extract_clean_value (row : Row) : List String → Option String
  | [] => none
  | colName :: rest =>
    match lookupCell row colName with
    | none => extract_clean_value row rest
    | some Cell.pyNone => extract_clean_value row rest
    | some Cell.nan => extract_clean_value row rest
    | some Cell.bad => extract_clean_value row rest
    | some (Cell.str s) =>
      if pyStrip s != "" && !(sentinelStrings.contains (pyLower (pyStrip s))) then
        some (pyStrip s)
      else extract_clean_value row rest

/-- The value one candidate column contributes, if usable: the per-candidate
body of the `extract_clean_value` loop, used to state its spec. -/
def usableValue (row : Row) (colName : String) : Option String :=
  match lookupCell row colName with
  | some (Cell.str s) =>
    if pyStrip s != "" && !(sentinelStrings.contains (pyLower (pyStrip s))) then
      some (pyStrip s)
    else none
  | _ => none

/-- The fixed keyword list of `is_target_title`. -/
def target_titles : List String :=
  ["vp of engineering",
   "vp engineering",
   "vice president of engineering",
   "engineering manager",
   "cto",
   "director of engineering"]

/-- The keyword loop of `is_target_title`, parameterized by the keyword list
so that order-independence can be stated. -/
def titleMatches (keys : List String) (titleLower : String) : Bool :=
  keys.any (fun k => strIncl titleLower k)

/-- Classifier `is_target_title(title)` with an explicit keyword list.  `none` models a
Python `None` title; `if not title` also rejects the empty string. -/
def is_target_title_keys (keys : List String) : Option String → Bool
  | none => false
  | some t =>
    if t = "" then false
    else if titleMatches keys (pyLower t) then true
    else if strIncl (pyLower t) "vp" then true
    else false

/-- Function `is_target_title(title)` from `talent-outreach.py` lines 51-77 and
`talent_engine.py` lines 59-85 (identical bodies). -/
def is_target_title : Option String → Bool := is_target_title_keys target_titles

/-- Python `name.split()[0]`: the first whitespace-delimited token;
`none` models the `IndexError` on a string without any such token. -/
def firstToken (s : String) : Option String :=
  match s.toList.dropWhile Char.isWhitespace with
  | [] => none
  | c :: cs => some (String.mk ((c :: cs).takeWhile (fun d => !d.isWhitespace)))

/-- The company clause of the two-argument templater: Python
`", ".join(companies[:3]) if companies else "your background"`. -/
def companiesClause (companies : List String) : String :=
  if companies.isEmpty then "your background"
  else String.intercalate ", " (companies.take 3)

/-- The fixed f-string template of `generate_message` in `talent-outreach.py`
line 91 / `talent_engine.py` line 99, as a two-hole function. -/
def msgTemplate (firstName companiesText : String) : String :=
  firstName ++ "! Really inspiring background leading + recruiting top eng talent (" ++
    companiesText ++
    "). I'm a first-time founder hiring a VP Eng + scaling (building an AI fashion discovery platform $ by Bloomberg Beta, 1517, etc). Would love to learn from you—totally get if now's not a good time!"

/-- The `first_name` computation of `generate_message`:
`name.split()[0] if name else "there"`.  `if name` takes the fallback for
Python `None` and for the empty string; `none` models the `IndexError`
raised by `split()[0]` on a whitespace-only name. -/
def firstNameOf : Option String → Option String
  | none => some "there"
  | some n => if n = "" then some "there" else firstToken n

/-- Function `generate_message(name, companies)` from `talent-outreach.py` lines 80-91
and `talent_engine.py` lines 88-99 (identical bodies).  A `none` result
models the raised `IndexError`. -/
def generate_message (name : Option String) (companies : List String) : Option String :=
  match firstNameOf name with
  | none => none
  | some firstName => some (msgTemplate firstName (companiesClause companies))

/-- Function `generate_message(name)` from `vp_scraper.py` lines 22-23: a one-argument
templater that interpolates the whole name into a different fixed string. -/
def vp_generate_message (name : String) : String :=
  name ++ "! Really inspiring background leading+recruiting top eng talent—I'd love to learn from your experience. I'm a first-time founder (building an agentic fashion discovery platform backed by Bloomberg Beta, 1517 VC, etc) + hiring a VP Eng + scaling. Open to a quick chat?"

/-- One entry of `data['data']['emails']` in a Hunter.io response
(only the `value` field is read by the code). -/
structure HunterEmail where
  value : String
deriving DecidableEq

/-- The `data['data']` object of a parsed Hunter.io response. -/
structure HunterData where
  emails : List HunterEmail
deriving DecidableEq

/-- Function `hunter_lookup(domain)` from `vp_scraper.py` lines 48-55, with the
`requests.get(url)`/`r.json()` outcome passed in as `resp`:
`Except.error` models a failed call or unparsable body; an empty `emails`
list makes the `[0]` indexing raise.  Every failure is caught by the bare
`except` and becomes `None`. -/
def hunter_lookup (resp : Except Unit HunterData) : Option String :=
  match resp with
  | Except.error _ => none
  | Except.ok d =>
    match d.emails with
    | [] => none
    | e :: _ => some e.value

/-- The guessed domain from `vp_scraper.py` line 64:
`f"{company.lower().replace(' ', '')}.com"` (`.replace(' ', '')` removes
every space character). -/
def deriveDomain (company : String) : String :=
  String.mk ((pyLower company).toList.filter (fun ch => ch != ' ')) ++ ".com"

/-- A Lead Record as collected by the two filtering variants. -/
structure Lead where
  name : String
  company : String
  title : Option String
  linkedin : Option String
  companies : List String
deriving DecidableEq

/-- The first half of the `companies` construction from
`talent-outreach.py` lines 129-142 / `talent_engine.py` lines 123-133
(identical bodies): the `company` column when truthy and not an URL. -/
def companiesStep1 (row : Row) : List String :=
  match extract_clean_value row ["company"] with
  | some c => if c != "" && !(pyStartswith c "http") then [c] else []
  | none => []

/-- The second `if` of the `companies` construction: append `company2` when
truthy, not an URL, and not already in the list. -/
def buildCompanies (row : Row) : List String :=
  match extract_clean_value row ["company2"] with
  | some c2 =>
    if c2 != "" && !(pyStartswith c2 "http") && !((companiesStep1 row).contains c2) then
      companiesStep1 row ++ [c2]
    else companiesStep1 row
  | none => companiesStep1 row

/-- The per-row extraction and `continue` guards shared verbatim by
`talent-outreach.py` lines 124-158 and `talent_engine.py` lines 118-137:
the row is accepted iff `name` and `company` are truthy and the title
passes `is_target_title`. -/
def extractLead (row : Row) : Option Lead :=
  match extract_clean_value row ["fullName", "name", "Name", "full_name"] with
  | none => none
  | some n =>
    if n = "" then none
    else
      match extract_clean_value row ["company", "companyName", "Company", "employer"] with
      | none => none
      | some c =>
        if c = "" then none
        else
          if is_target_title (extract_clean_value row ["jobTitle", "title", "Title", "position"]) then
            some { name := n,
                   company := c,
                   title := extract_clean_value row ["jobTitle", "title", "Title", "position"],
                   linkedin := extract_clean_value row ["profileUrl", "linkedin", "LinkedIn", "url"],
                   companies := buildCompanies row }
          else none

/-- The whole-value replacement `df.replace([np.nan, None, 'nan', 'NaN',
'None', 'null'], '')` applied by both filtering variants before the loop. -/
def cleanCell : Cell → Cell
  | Cell.pyNone => Cell.str ""
  | Cell.nan => Cell.str ""
  | Cell.str s =>
    if s == "nan" || s == "NaN" || s == "None" || s == "null" then Cell.str ""
    else Cell.str s
  | Cell.bad => Cell.bad

/-- The `df.replace` step lifted to a row. -/
def cleanRow (row : Row) : Row := row.map (fun p => (p.1, cleanCell p.2))

/-- A sheet cell as handed to `sheet.append_row` (raw Python objects). -/
def optCell : Option String → Cell
  | some s => Cell.str s
  | none => Cell.pyNone

/-- The 6-field row appended by `talent-outreach.py` lines 166-173:
`[name, linkedin or "", title or "", company, message, "Not found"]`. -/
def mkRowTo (l : Lead) (msg : String) : List Cell :=
  [Cell.str l.name,
   Cell.str (l.linkedin.getD ""),
   Cell.str (l.title.getD ""),
   Cell.str l.company,
   Cell.str msg,
   Cell.str "Not found"]

/-- The 6-field row appended by `talent_engine.py` lines 157-164:
`[name, linkedin_url, title, company, message, '']` (the linkedin value is
appended raw, so a missing one is the Python `None`). -/
def mkRowTe (l : Lead) (msg : String) : List Cell :=
  [Cell.str l.name,
   optCell l.linkedin,
   optCell l.title,
   Cell.str l.company,
   Cell.str msg,
   Cell.str ""]

/-- The row loop of `talent-outreach.py` `main` (lines 117-178), for rows
already passed through `df.replace`.  Returns the rows passed to
`sheet.append_row` and the `successful_rows` count; `sink` decides whether an
append raises (that exception is caught per row and only skips the counter).
A `generate_message` failure is NOT caught per row: it aborts the loop
(the top-level handler then logs it), so the remaining rows produce no
appends. -/
def runRows_to (sink : List Cell → Bool) : List Row → List (List Cell) × Nat
  | [] => ([], 0)
  | r :: rs =>
    match extractLead r with
    | none => runRows_to sink rs
    | some l =>
      match generate_message (some l.name) l.companies with
      | none => ([], 0)
      | some msg =>
        (mkRowTo l msg :: (runRows_to sink rs).1,
         (if sink (mkRowTo l msg) then 1 else 0) + (runRows_to sink rs).2)

/-- Function `main()` of `talent-outreach.py` lines 106-187.  Input `none` models a
missing CSV file (`FileNotFoundError`).  Result: append calls, success count,
and whether the process exited normally — the top-level
`except FileNotFoundError` / `except Exception` handlers make every exit
normal. -/
def mainRun_to (sink : List Cell → Bool) (csv : Option (List Row)) :
    List (List Cell) × Nat × Bool :=
  match csv with
  | none => ([], 0, true)
  | some df =>
    ((runRows_to sink (df.map cleanRow)).1, (runRows_to sink (df.map cleanRow)).2, true)

/-- The append loop of `talent_engine.py` lines 153-169 over the collected
`people_data`.  Here `generate_message` is called inside the per-person
`try`, so its failure is logged and the loop continues. -/
def runPeople_te (sink : List Cell → Bool) : List Lead → List (List Cell) × Nat
  | [] => ([], 0)
  | l :: ls =>
    match generate_message (some l.name) l.companies with
    | none => runPeople_te sink ls
    | some msg =>
      (mkRowTe l msg :: (runPeople_te sink ls).1,
       (if sink (mkRowTe l msg) then 1 else 0) + (runPeople_te sink ls).2)

/-- Function `main()` of `talent_engine.py` lines 102-187: collect `people_data`
by the shared extraction guards, then append each. -/
def mainRun_te (sink : List Cell → Bool) (csv : Option (List Row)) :
    List (List Cell) × Nat × Bool :=
  match csv with
  | none => ([], 0, true)
  | some df =>
    ((runPeople_te sink ((df.map cleanRow).filterMap extractLead)).1,
     (runPeople_te sink ((df.map cleanRow).filterMap extractLead)).2,
     true)

/-- The leads the filtering variants accept from a CSV. -/
def acceptedLeads (csv : Option (List Row)) : List Lead :=
  match csv with
  | none => []
  | some df => (df.map cleanRow).filterMap extractLead

/-- The email resolution of `vp_scraper.py` lines 67-69:
Hunter first; if that is falsy and the row has a truthy `github` column,
the GitHub miner (modelled by the oracle `gh`). -/
def vpEmail (svc : String → Except Unit HunterData) (gh : Cell → Option String)
    (row : Row) (company : String) : Option String :=
  match hunter_lookup (svc (deriveDomain company)) with
  | some e =>
    if e != "" then some e
    else if cellTruthy (getCellD row "github") then gh (getCellD row "github") else some e
  | none =>
    if cellTruthy (getCellD row "github") then gh (getCellD row "github") else none

/-- Python `email or "Not found"` (an empty string is falsy too). -/
def pyOrNotFound : Option String → String
  | some s => if s != "" then s else "Not found"
  | none => "Not found"

/-- The 6-field row appended by `vp_scraper.py` line 71:
`[name, linkedin, title, company, message, email or "Not found"]`
(name/linkedin/title are the raw cell values). -/
def mkRowVp (name linkedin title : Cell) (company message email : String) : List Cell :=
  [name, linkedin, title, Cell.str company, Cell.str message, Cell.str email]

/-- One iteration of the module-level loop of `vp_scraper.py` lines 59-71.
`Except.error` models an uncaught exception: `company.lower()` raises
`AttributeError` when the company value is not a string (Python `None` or a
float NaN), and `f"{name}"` raises when `str(name)` does. -/
def vpProcessRow (svc : String → Except Unit HunterData) (gh : Cell → Option String)
    (row : Row) : Except Unit (List Cell) :=
  match pyOrCell (getCellD row "companyName") (getCellD row "Company") with
  | Cell.str c =>
    match pyStr? (pyOrCell (getCellD row "name") (getCellD row "Name")) with
    | none => Except.error ()
    | some nameStr =>
      Except.ok (mkRowVp
        (pyOrCell (getCellD row "name") (getCellD row "Name"))
        (pyOrCell (getCellD row "linkedin") (getCellD row "LinkedIn"))
        (pyOrCell (getCellD row "title") (getCellD row "Title"))
        c
        (vp_generate_message nameStr)
        (pyOrNotFound (vpEmail svc gh row c)))
  | _ => Except.error ()

/-- The module-level loop of `vp_scraper.py`: no `try` anywhere, so a row
failure or a raising `sheet.append_row` halts the batch; the `Bool` is true
iff the loop ran to completion (normal process exit). -/
def vpRunRows (svc : String → Except Unit HunterData) (gh : Cell → Option String)
    (sink : List Cell → Bool) : List Row → List (List Cell) × Bool
  | [] => ([], true)
  | r :: rs =>
    match vpProcessRow svc gh r with
    | Except.error _ => ([], false)
    | Except.ok sr =>
      if sink sr then
        (sr :: (vpRunRows svc gh sink rs).1, (vpRunRows svc gh sink rs).2)
      else ([sr], false)

/-- The whole `vp_scraper.py` script: `pd.read_csv` has no handler, so a
missing input file (`csv = none`) is itself an abnormal exit. -/
def vpRun (svc : String → Except Unit HunterData) (gh : Cell → Option String)
    (sink : List Cell → Bool) : Option (List Row) → List (List Cell) × Bool
  | none => ([], false)
  | some df => vpRunRows svc gh sink df

/-- A sink on which every append succeeds. -/
def sinkOk : List Cell → Bool := fun _ => true

/-- A sink on which every append raises. -/
def sinkBroken : List Cell → Bool := fun _ => false

/-- A Hunter.io service whose every call fails. -/
def svcErr : String → Except Unit HunterData := fun _ => Except.error ()

/-- A Hunter.io service that always returns one email for the Acme domain. -/
def svcAcme : String → Except Unit HunterData :=
  fun _ => Except.ok (HunterData.mk [HunterEmail.mk "ceo@acmecorp.com"])

/-- A GitHub miner that never finds an email. -/
def ghNone : Cell → Option String := fun _ => none

/-! ### Concrete fixture rows -/

/-- A qualifying CSV row for the filtering variants. -/
def exQualRow : Row :=
  [("fullName", Cell.str "Jane Doe"), ("company", Cell.str "Acme"),
   ("jobTitle", Cell.str "VP of Engineering")]

/-- A non-qualifying CSV row (title `Software Engineer`). -/
def exSERow : Row :=
  [("fullName", Cell.str "John Roe"), ("company", Cell.str "Beta"),
   ("jobTitle", Cell.str "Software Engineer")]

/-- The lead the filtering variants extract from `exQualRow`. -/
def exQualLead : Lead :=
  { name := "Jane Doe", company := "Acme", title := some "VP of Engineering",
    linkedin := none, companies := ["Acme"] }

/-- The sheet row `talent-outreach.py` appends for `exQualRow`. -/
def exAppendedRow : List Cell :=
  mkRowTo exQualLead (msgTemplate "Jane" (companiesClause ["Acme"]))

/-- A row whose `company` and `company2` columns hold the same value. -/
def exDupRow : Row := [("company", Cell.str "Acme"), ("company2", Cell.str "Acme")]

/-- A row whose `name` column has surrounding whitespace. -/
def exPaddedRow : Row := [("name", Cell.str "  Jane  ")]

/-- A qualifying row in `vp_scraper.py`'s column vocabulary. -/
def vpQualRow : Row :=
  [("name", Cell.str "Jane Doe"), ("companyName", Cell.str "Acme"),
   ("title", Cell.str "VP of Engineering"), ("linkedin", Cell.str "http://li/jd")]

/-- A `Software Engineer` row in `vp_scraper.py`'s column vocabulary. -/
def vpSERow : Row :=
  [("name", Cell.str "John Roe"), ("companyName", Cell.str "Beta"),
   ("title", Cell.str "Software Engineer")]

/-- A row with no company column at all: `company.lower()` raises in
`vp_scraper.py`. -/
def vpBadRow : Row := [("name", Cell.str "Bob Crash")]

/-- Another valid row, placed after `vpBadRow` to show the batch halts. -/
def vpThirdRow : Row :=
  [("name", Cell.str "Ada Lovelace"), ("companyName", Cell.str "Gamma")]

/-- The sheet row `vp_scraper.py` appends for `vpQualRow` when the Hunter
call fails and no `github` column is present. -/
def vpQualAppendedRow : List Cell :=
  [Cell.str "Jane Doe", Cell.str "http://li/jd", Cell.str "VP of Engineering",
   Cell.str "Acme", Cell.str (vp_generate_message "Jane Doe"), Cell.str "Not found"]

/-! ### Helper lemmas -/

lemma dropWhile_head_false {α : Type} {p : α → Bool} :
    ∀ {l : List α} {c : α} {cs : List α}, List.dropWhile p l = c :: cs → p c = false
  | [], c, cs, h => by simp [List.dropWhile] at h
  | a :: as, c, cs, h => by
      rw [List.dropWhile_cons] at h
      cases ha : p a with
      | true => rw [ha] at h; simp at h; exact dropWhile_head_false h
      | false => rw [ha] at h; simp at h; rw [← h.1]; exact ha

lemma stripList_prefix (l : List Char) :
    stripList l <+: List.dropWhile Char.isWhitespace l := by
  obtain ⟨t, ht⟩ :=
    List.dropWhile_suffix (l := (List.dropWhile Char.isWhitespace l).reverse)
      Char.isWhitespace
  exact ⟨t.reverse, by
    unfold stripList
    rw [← List.reverse_append, ht, List.reverse_reverse]⟩

lemma stripList_head_false {l : List Char} {c : Char} {cs : List Char}
    (h : stripList l = c :: cs) : c.isWhitespace = false := by
  obtain ⟨u, hu⟩ := stripList_prefix l
  rw [h, List.cons_append] at hu
  exact dropWhile_head_false hu.symm

lemma stripList_reverse (l : List Char) :
    (stripList l).reverse =
      List.dropWhile Char.isWhitespace (List.dropWhile Char.isWhitespace l).reverse := by
  unfold stripList
  rw [List.reverse_reverse]

lemma stripList_idem (l : List Char) : stripList (stripList l) = stripList l := by
  have hgoal : ∀ m : List Char, stripList l = m → stripList m = m := by
    intro m hm
    cases m with
    | nil => rfl
    | cons c cs =>
      have hc : c.isWhitespace = false := stripList_head_false hm
      have hrev : List.dropWhile Char.isWhitespace
          (List.dropWhile Char.isWhitespace l).reverse = (c :: cs).reverse := by
        rw [← stripList_reverse, hm]
      cases hr : (c :: cs).reverse with
      | nil => simp at hr
      | cons d ds =>
        have hd : d.isWhitespace = false :=
          dropWhile_head_false (hrev.trans hr)
        have step1 : List.dropWhile Char.isWhitespace (c :: cs) = c :: cs := by
          rw [List.dropWhile_cons, hc, if_neg Bool.false_ne_true]
        have step2 : List.dropWhile Char.isWhitespace (c :: cs).reverse =
            (c :: cs).reverse := by
          rw [hr, List.dropWhile_cons, hd, if_neg Bool.false_ne_true]
        show ((List.dropWhile Char.isWhitespace (c :: cs)).reverse.dropWhile
                Char.isWhitespace).reverse = c :: cs
        rw [step1, step2, List.reverse_reverse]
  exact hgoal (stripList l) rfl

lemma pyStrip_idem (s : String) : pyStrip (pyStrip s) = pyStrip s := by
  unfold pyStrip
  exact congrArg String.mk (stripList_idem s.toList)

lemma firstToken_isSome {v : String} (h1 : pyStrip v = v) (h2 : v ≠ "") :
    (firstToken v).isSome = true := by
  have hdata : stripList v.data = v.data := congrArg String.data h1
  cases hd : v.data with
  | nil => exact absurd (String.ext hd) h2
  | cons c cs =>
    have hc : c.isWhitespace = false := stripList_head_false (hd ▸ hdata)
    unfold firstToken
    rw [show v.toList = v.data from rfl, hd, List.dropWhile_cons, hc]
    simp

lemma generate_message_isSome {n : String} (h1 : pyStrip n = n) (h2 : n ≠ "")
    (cs : List String) : (generate_message (some n) cs).isSome = true := by
  have hf := firstToken_isSome h1 h2
  cases hfk : firstToken n with
  | none => rw [hfk] at hf; simp at hf
  | some t => simp [generate_message, firstNameOf, h2, hfk]

lemma extract_some_props {row : Row} {cols : List String} {v : String}
    (h : extract_clean_value row cols = some v) :
    pyStrip v = v ∧ v ≠ "" ∧ sentinelStrings.contains (pyLower v) = false := by
  induction cols with
  | nil => simp [extract_clean_value] at h
  | cons c rest ih =>
    rw [extract_clean_value] at h
    split at h
    · exact ih h
    · exact ih h
    · exact ih h
    · exact ih h
    · rename_i s _
      split at h
      · rename_i hg
        have hg' : (pyStrip s != "") = true ∧
            (!(sentinelStrings.contains (pyLower (pyStrip s)))) = true := by
          simpa using hg
        obtain ⟨hg1, hg2⟩ := hg'
        have hv : v = pyStrip s := (Option.some_inj.mp h).symm
        subst hv
        refine ⟨pyStrip_idem s, bne_iff_ne.mp hg1, ?_⟩
        simpa using hg2
      · exact ih h

lemma extract_cons (row : Row) (c : String) (rest : List String) :
    extract_clean_value row (c :: rest) =
      match usableValue row c with
      | some v => some v
      | none => extract_clean_value row rest := by
  rw [extract_clean_value]
  unfold usableValue
  cases hc : lookupCell row c with
  | none => rfl
  | some cell =>
    cases cell with
    | pyNone => rfl
    | nan => rfl
    | bad => rfl
    | str s =>
      by_cases hg :
          (pyStrip s != "" && !(sentinelStrings.contains (pyLower (pyStrip s)))) = true
      · simp only [if_pos hg]
      · simp only [if_neg hg]

lemma extract_eq_findSome (row : Row) (cols : List String) :
    extract_clean_value row cols = List.findSome? (usableValue row) cols := by
  induction cols with
  | nil => rfl
  | cons c rest ih =>
    rw [extract_cons, List.findSome?_cons, ih]
    cases usableValue row c <;> rfl

lemma extractLead_props {row : Row} {l : Lead} (h : extractLead row = some l) :
    l.name ≠ "" ∧ pyStrip l.name = l.name ∧ l.company ≠ "" ∧
      is_target_title l.title = true ∧
      (generate_message (some l.name) l.companies).isSome = true := by
  unfold extractLead at h
  split at h
  · exact absurd h (by simp)
  · rename_i n hn
    split at h
    · exact absurd h (by simp)
    · rename_i hne
      split at h
      · exact absurd h (by simp)
      · rename_i c hcmp
        split at h
        · exact absurd h (by simp)
        · rename_i hce
          split at h
          · rename_i ht
            have hl := Option.some_inj.mp h
            have hstrip : pyStrip n = n := (extract_some_props hn).1
            subst hl
            exact ⟨hne, hstrip, hce, ht, generate_message_isSome hstrip hne _⟩
          · exact absurd h (by simp)

lemma runRows_to_appends (sink : List Cell → Bool) (rows : List Row) :
    (runRows_to sink rows).1 =
      (rows.filterMap extractLead).map
        (fun l => mkRowTo l ((generate_message (some l.name) l.companies).getD "")) := by
  induction rows with
  | nil => rfl
  | cons r rs ih =>
    rw [runRows_to, List.filterMap_cons]
    cases he : extractLead r with
    | none => simpa using ih
    | some l =>
      have hm := (extractLead_props he).2.2.2.2
      cases hg : generate_message (some l.name) l.companies with
      | none => rw [hg] at hm; simp at hm
      | some msg => simp [hg, ih]

lemma runPeople_te_appends (sink : List Cell → Bool) (ls : List Lead)
    (hall : ∀ l ∈ ls, (generate_message (some l.name) l.companies).isSome = true) :
    (runPeople_te sink ls).1 =
      ls.map (fun l => mkRowTe l ((generate_message (some l.name) l.companies).getD "")) := by
  induction ls with
  | nil => rfl
  | cons l ls ih =>
    rw [runPeople_te]
    have hm := hall l (List.mem_cons_self l ls)
    cases hg : generate_message (some l.name) l.companies with
    | none => rw [hg] at hm; simp at hm
    | some msg =>
      simp [hg, ih (fun x hx => hall x (List.mem_cons_of_mem l hx))]

lemma mainRun_to_appends (sink : List Cell → Bool) (csv : Option (List Row)) :
    (mainRun_to sink csv).1 =
      (acceptedLeads csv).map
        (fun l => mkRowTo l ((generate_message (some l.name) l.companies).getD "")) := by
  cases csv with
  | none => rfl
  | some df => exact runRows_to_appends sink (df.map cleanRow)

lemma mainRun_te_appends (sink : List Cell → Bool) (csv : Option (List Row)) :
    (mainRun_te sink csv).1 =
      (acceptedLeads csv).map
        (fun l => mkRowTe l ((generate_message (some l.name) l.companies).getD "")) := by
  cases csv with
  | none => rfl
  | some df =>
    refine runPeople_te_appends sink _ ?_
    intro l hl
    obtain ⟨r, _, hr⟩ := List.mem_filterMap.mp hl
    exact (extractLead_props hr).2.2.2.2

lemma acceptedLeads_props {csv : Option (List Row)} {l : Lead}
    (h : l ∈ acceptedLeads csv) :
    l.name ≠ "" ∧ l.company ≠ "" ∧ is_target_title l.title = true := by
  cases csv with
  | none => simp [acceptedLeads] at h
  | some df =>
    obtain ⟨r, _, hr⟩ := List.mem_filterMap.mp h
    obtain ⟨h1, _, h3, h4, _⟩ := extractLead_props hr
    exact ⟨h1, h3, h4⟩

lemma firstToken_eq_none_iff (s : String) :
    firstToken s = none ↔ s.toList.all Char.isWhitespace = true := by
  rw [List.all_eq_true, ← List.dropWhile_eq_nil_iff]
  unfold firstToken
  cases hd : s.toList.dropWhile Char.isWhitespace <;> simp [hd]

lemma vpProcessRow_len {svc : String → Except Unit HunterData}
    {gh : Cell → Option String} {r : Row} {sr : List Cell}
    (h : vpProcessRow svc gh r = Except.ok sr) : sr.length = 6 := by
  unfold vpProcessRow at h
  split at h
  · split at h
    · exact absurd h (by simp)
    · have := Except.ok.inj h
      rw [← this]
      rfl
  · exact absurd h (by simp)

lemma vpRunRows_len (svc : String → Except Unit HunterData) (gh : Cell → Option String)
    (sink : List Cell → Bool) (rows : List Row) :
    ((vpRunRows svc gh sink rows).1.all (fun r => r.length == 6)) = true := by
  induction rows with
  | nil => rfl
  | cons r rs ih =>
    rw [vpRunRows]
    cases hp : vpProcessRow svc gh r with
    | error e => rfl
    | ok sr =>
      have hlen : sr.length = 6 := vpProcessRow_len hp
      by_cases hs : sink sr = true
      · simp [hs, ih, hlen]
      · simp [hs, hlen]

lemma vpProcessRow_shape {svc : String → Except Unit HunterData}
    {gh : Cell → Option String} {row : Row} {sr : List Cell}
    (h : vpProcessRow svc gh row = Except.ok sr) :
    ∃ c nameStr,
      pyOrCell (getCellD row "companyName") (getCellD row "Company") = Cell.str c
      ∧ pyStr? (pyOrCell (getCellD row "name") (getCellD row "Name")) = some nameStr
      ∧ sr = [pyOrCell (getCellD row "name") (getCellD row "Name"),
              pyOrCell (getCellD row "linkedin") (getCellD row "LinkedIn"),
              pyOrCell (getCellD row "title") (getCellD row "Title"),
              Cell.str c,
              Cell.str (vp_generate_message nameStr),
              Cell.str (pyOrNotFound (vpEmail svc gh row c))] := by
  unfold vpProcessRow at h
  split at h
  · rename_i c hc
    split at h
    · exact absurd h (by simp)
    · rename_i nameStr hn
      refine ⟨c, nameStr, hc, hn, ?_⟩
      have hsr := Except.ok.inj h
      rw [← hsr]
      rfl
  · exact absurd h (by simp)

lemma vpRunRows_shape {svc : String → Except Unit HunterData} {gh : Cell → Option String}
    {sink : List Cell → Bool} :
    ∀ {rows : List Row} {r : List Cell}, r ∈ (vpRunRows svc gh sink rows).1 →
      ∃ row, row ∈ rows ∧ vpProcessRow svc gh row = Except.ok r := by
  intro rows
  induction rows with
  | nil =>
    intro r hr
    simp [vpRunRows] at hr
  | cons r0 rs ih =>
    intro r hr
    rw [vpRunRows] at hr
    cases hp : vpProcessRow svc gh r0 with
    | error e =>
      simp only [hp] at hr
      simp at hr
    | ok sr =>
      simp only [hp] at hr
      by_cases hs : sink sr = true
      · rw [if_pos hs] at hr
        rcases List.mem_cons.mp hr with hEq | hMem
        · exact ⟨r0, List.mem_cons_self r0 rs, by rw [hp, hEq]⟩
        · obtain ⟨row, hrow, hok⟩ := ih hMem
          exact ⟨row, List.mem_cons_of_mem r0 hrow, hok⟩
      · rw [if_neg hs] at hr
        have hEq : r = sr := by simpa using hr
        exact ⟨r0, List.mem_cons_self r0 rs, by rw [hp, hEq]⟩

lemma any_perm {keys keys' : List String} (h : keys.Perm keys') (f : String → Bool) :
    keys.any f = keys'.any f := by
  rw [Bool.eq_iff_iff, List.any_eq_true, List.any_eq_true]
  constructor
  · rintro ⟨x, hx, hfx⟩
    exact ⟨x, h.mem_iff.mp hx, hfx⟩
  · rintro ⟨x, hx, hfx⟩
    exact ⟨x, h.mem_iff.mpr hx, hfx⟩

/-! ### Claim theorems -/

/-- C2: for every row and ordered candidate list, `extract_clean_value`
returns the cleaned value of the first candidate that is present and usable
(present, convertible, and neither empty nor a sentinel after trimming and
lower-casing — the `usableValue` predicate), and returns nothing exactly when
no candidate yields a usable value.  The function is total (a conversion
failure, the `Cell.bad` case of `usableValue`, counts as no value), so no
exception escapes. -/
theorem C2_extract_spec (row : Row) (cols : List String) :
    extract_clean_value row cols = List.findSome? (usableValue row) cols
    ∧ (extract_clean_value row cols = none ↔ ∀ c ∈ cols, usableValue row c = none) := by
  refine ⟨extract_eq_findSome row cols, ?_⟩
  rw [extract_eq_findSome row cols]
  exact List.findSome?_eq_none_iff

/-- C3: the title classifier rejects an absent title, accepts exactly the
titles whose lower-casing contains one of the six fixed keywords or the
substring `vp`, is insensitive to the order of the keyword list, and decides
the five concrete examples as the spec states. -/
theorem C3_title_spec (keys : List String) (t : String)
    (hperm : keys.Perm target_titles) :
    is_target_title none = false
    ∧ is_target_title_keys keys (some t) = is_target_title (some t)
    ∧ is_target_title (some t) =
        (target_titles.any (fun k => strIncl (pyLower t) k) || strIncl (pyLower t) "vp")
    ∧ is_target_title (some "VP of Engineering") = true
    ∧ is_target_title (some "Director of Engineering") = true
    ∧ is_target_title (some "Senior VP") = true
    ∧ is_target_title (some "Software Engineer") = false
    ∧ is_target_title (some "") = false := by
  have hany : titleMatches keys (pyLower t) = titleMatches target_titles (pyLower t) :=
    any_perm hperm _
  refine ⟨rfl, ?_, ?_, by decide, by decide, by decide, by decide, by decide⟩
  · show is_target_title_keys keys (some t) = is_target_title_keys target_titles (some t)
    simp only [is_target_title_keys, hany]
  · show is_target_title_keys target_titles (some t) = _
    simp only [is_target_title_keys, titleMatches]
    by_cases he : t = ""
    · subst he; decide
    · rw [if_neg he]
      by_cases h1 : target_titles.any (fun k => strIncl (pyLower t) k) = true
      · simp [h1]
      · simp [h1]

theorem C3_title_spec_witness :
    is_target_title_keys target_titles.reverse (some "Senior VP") =
      is_target_title (some "Senior VP") :=
  (C3_title_spec target_titles.reverse "Senior VP" (List.reverse_perm _)).2.1

/-- C9: every value the row normalizer returns is a non-empty string that is
its own trimmed form, and its lower-casing is none of the sentinel words
`nan` / `none` / `null`. -/
theorem C9_extract_invariant (row : Row) (cols : List String) (v : String)
    (h : extract_clean_value row cols = some v) :
    v ≠ "" ∧ pyStrip v = v ∧
      pyLower v ≠ "nan" ∧ pyLower v ≠ "none" ∧ pyLower v ≠ "null" := by
  obtain ⟨hstrip, hne, hcont⟩ := extract_some_props h
  refine ⟨hne, hstrip, ?_, ?_, ?_⟩ <;>
    · intro heq
      rw [heq] at hcont
      exact absurd hcont (by decide)

theorem C9_extract_invariant_witness :
    "Jane" ≠ "" ∧ pyStrip "Jane" = "Jane" ∧
      pyLower "Jane" ≠ "nan" ∧ pyLower "Jane" ≠ "none" ∧ pyLower "Jane" ≠ "null" :=
  C9_extract_invariant exPaddedRow ["name"] "Jane" (by decide)

/-- C10: the two-argument templater returns a message for every name that is
absent (or empty), and for every name containing a non-whitespace character;
the `IndexError` branch of `name.split()[0]` is reachable exactly for a
non-empty name consisting only of whitespace. -/
theorem C10_generate_message_total (name : Option String) (cs : List String) :
    generate_message name cs = none ↔
      ∃ n, name = some n ∧ n ≠ "" ∧ n.toList.all Char.isWhitespace = true := by
  cases name with
  | none => simp [generate_message, firstNameOf]
  | some n =>
    by_cases hne : n = ""
    · subst hne
      simp [generate_message, firstNameOf]
    · have hred : generate_message (some n) cs = none ↔ firstToken n = none := by
        simp only [generate_message, firstNameOf]
        rw [if_neg hne]
        cases hf : firstToken n <;> simp [hf]
      rw [hred, firstToken_eq_none_iff]
      constructor
      · intro hall
        exact ⟨n, rfl, hne, hall⟩
      · rintro ⟨n', hn', _, hall⟩
        have : n' = n := (Option.some_inj.mp hn').symm
        rw [← this]
        exact hall

set_option maxRecDepth 8192 in
/-- C4 (counterexample): the claim cites `vp_scraper.py`'s `generate_message`
as well, but that templater interpolates the whole name and has no company
clause: on name `Jane Doe` its output contains neither `Jane!` nor
`(Acme, Foo, Bar)`. -/
theorem C4_counterexample :
    strIncl (vp_generate_message "Jane Doe") "Jane!" = false
    ∧ strIncl (vp_generate_message "Jane Doe") "(Acme, Foo, Bar)" = false := by
  constructor
  · decide
  · decide

/-- C4 (amended): for the two-argument templater of `talent-outreach.py` and
`talent_engine.py`, the output interpolates exactly the first
whitespace-delimited token of the name (or `there` when the name is absent)
and the comma-join of the first three companies (or `your background` when
the list is empty) into the fixed template, and the Jane Doe example holds.
`vp_scraper.py`'s one-argument templater is excluded. -/
theorem C4_template_spec (name : Option String) (cs : List String) :
    (name = none → generate_message name cs = some (msgTemplate "there" (companiesClause cs)))
    ∧ (∀ n t, name = some n → firstToken n = some t →
        generate_message name cs = some (msgTemplate t (companiesClause cs)))
    ∧ (cs = [] → companiesClause cs = "your background")
    ∧ (cs ≠ [] → companiesClause cs = String.intercalate ", " (cs.take 3))
    ∧ strIncl ((generate_message (some "Jane Doe") ["Acme", "Foo", "Bar", "Baz"]).getD "")
        "Jane!" = true
    ∧ strIncl ((generate_message (some "Jane Doe") ["Acme", "Foo", "Bar", "Baz"]).getD "")
        "(Acme, Foo, Bar)" = true := by
  refine ⟨?_, ?_, ?_, ?_, by decide, by decide⟩
  · intro h
    subst h
    rfl
  · intro n t hn ht
    subst hn
    by_cases hne : n = ""
    · subst hne
      rw [show firstToken "" = none from rfl] at ht
      exact Option.noConfusion ht
    · simp only [generate_message, firstNameOf]
      rw [if_neg hne, ht]
  · intro h
    subst h
    rfl
  · intro h
    simp only [companiesClause]
    rw [if_neg (by simpa using h)]

theorem C4_template_spec_witness :
    generate_message (some "Jane Doe") ["Acme", "Foo", "Bar", "Baz"] =
      some (msgTemplate "Jane" (companiesClause ["Acme", "Foo", "Bar", "Baz"])) :=
  (C4_template_spec (some "Jane Doe") ["Acme", "Foo", "Bar", "Baz"]).2.1
    "Jane Doe" "Jane" rfl (by decide)

/-- C6: the domain-search strategy guesses the domain by lower-casing the
company name, removing its spaces and appending `.com`; the lookup returns
the `value` of the first email of a successful response and nothing on a
failed call or an empty email list (the bare `except` turns every failure
into `None`, so no exception escapes). -/
theorem C6_hunter_spec (svc : String → Except Unit HunterData) (company : String) :
    deriveDomain company =
      String.mk ((pyLower company).toList.filter (fun ch => ch != ' ')) ++ ".com"
    ∧ (∀ e, svc (deriveDomain company) = Except.error e →
        hunter_lookup (svc (deriveDomain company)) = none)
    ∧ (∀ d, svc (deriveDomain company) = Except.ok d →
        hunter_lookup (svc (deriveDomain company)) = d.emails.head?.map HunterEmail.value) := by
  refine ⟨rfl, ?_, ?_⟩
  · intro e he
    rw [he]
    rfl
  · intro d hd
    rw [hd]
    obtain ⟨emails⟩ := d
    cases emails with
    | nil => rfl
    | cons x xs => rfl

theorem C6_hunter_spec_witness :
    hunter_lookup (svcAcme (deriveDomain "Acme Corp")) = some "ceo@acmecorp.com" :=
  Eq.trans
    ((C6_hunter_spec svcAcme "Acme Corp").2.2
      (HunterData.mk [HunterEmail.mk "ceo@acmecorp.com"]) rfl)
    (by decide)

/-- C8: when the `company2` value equals the collected primary company (and
that company was collected, i.e. it does not start with `http`), the
deduplication keeps the `companies` list at length 1. -/
theorem C8_companies_dedup (row : Row) (c : String)
    (h1 : extract_clean_value row ["company"] = some c)
    (h2 : extract_clean_value row ["company2"] = some c)
    (h3 : pyStartswith c "http" = false) :
    buildCompanies row = [c] := by
  have hne : c ≠ "" := (extract_some_props h1).2.1
  have hstep : companiesStep1 row = [c] := by
    simp only [companiesStep1, h1]
    rw [if_pos]
    simp [h3, bne_iff_ne.mpr hne]
  simp only [buildCompanies, h2, hstep]
  rw [if_neg]
  simp

theorem C8_companies_dedup_witness : buildCompanies exDupRow = ["Acme"] :=
  C8_companies_dedup exDupRow "Acme" (by decide) (by decide) (by decide)

set_option maxRecDepth 8192 in
/-- C1 (counterexample): `vp_scraper.py` appends every row unconditionally:
on a CSV with one qualifying row and one `Software Engineer` row it makes two
append calls, not one, although `Software Engineer` is not an accepted
title. -/
theorem C1_counterexample :
    (vpRun svcErr ghNone sinkOk (some [vpQualRow, vpSERow])).1.length = 2
    ∧ is_target_title (some "Software Engineer") = false := by
  constructor
  · rfl
  · decide

set_option maxRecDepth 8192 in
/-- C1 (amended): in the two filtering variants (`talent-outreach.py`,
`talent_engine.py`) a row is appended only for an accepted lead — one whose
normalized name and company are non-empty and whose title passes the
classifier — and on a CSV with one qualifying row and one
`Software Engineer` row each makes exactly one append call.  `vp_scraper.py`
appends every row unconditionally. -/
theorem C1_append_guard (sink : List Cell → Bool) (csv : Option (List Row))
    (r : List Cell) :
    (r ∈ (mainRun_to sink csv).1 →
      ∃ l, l ∈ acceptedLeads csv
        ∧ r = mkRowTo l ((generate_message (some l.name) l.companies).getD "")
        ∧ l.name ≠ "" ∧ l.company ≠ "" ∧ is_target_title l.title = true)
    ∧ (r ∈ (mainRun_te sink csv).1 →
      ∃ l, l ∈ acceptedLeads csv
        ∧ r = mkRowTe l ((generate_message (some l.name) l.companies).getD "")
        ∧ l.name ≠ "" ∧ l.company ≠ "" ∧ is_target_title l.title = true)
    ∧ (mainRun_to sinkOk (some [exQualRow, exSERow])).1.length = 1
    ∧ (mainRun_te sinkOk (some [exQualRow, exSERow])).1.length = 1 := by
  refine ⟨?_, ?_, rfl, rfl⟩
  · intro hr
    rw [mainRun_to_appends] at hr
    obtain ⟨l, hl, hrl⟩ := List.mem_map.mp hr
    obtain ⟨h1, h2, h3⟩ := acceptedLeads_props hl
    exact ⟨l, hl, hrl.symm, h1, h2, h3⟩
  · intro hr
    rw [mainRun_te_appends] at hr
    obtain ⟨l, hl, hrl⟩ := List.mem_map.mp hr
    obtain ⟨h1, h2, h3⟩ := acceptedLeads_props hl
    exact ⟨l, hl, hrl.symm, h1, h2, h3⟩

set_option maxRecDepth 8192 in
theorem C1_append_guard_witness :
    ∃ l, l ∈ acceptedLeads (some [exQualRow, exSERow])
      ∧ exAppendedRow = mkRowTo l ((generate_message (some l.name) l.companies).getD "")
      ∧ l.name ≠ "" ∧ l.company ≠ "" ∧ is_target_title l.title = true :=
  (C1_append_guard sinkOk (some [exQualRow, exSERow]) exAppendedRow).1 (by decide)

set_option maxRecDepth 8192 in
/-- C5 (counterexample): `vp_scraper.py` has no exception handling: a single
row failure (here a row with no company column, on which `company.lower()`
raises) halts the batch — the following valid row is never appended — and
both that exit and a missing input file are abnormal.  An append failure
likewise halts it. -/
theorem C5_counterexample :
    (vpRun svcErr ghNone sinkOk (some [vpQualRow, vpBadRow, vpThirdRow])).1.length = 1
    ∧ (vpRun svcErr ghNone sinkOk (some [vpQualRow, vpBadRow, vpThirdRow])).2 = false
    ∧ (vpRun svcErr ghNone sinkOk none).2 = false
    ∧ (vpRun svcErr ghNone sinkBroken (some [vpQualRow, vpThirdRow])).1.length = 1
    ∧ (vpRun svcErr ghNone sinkBroken (some [vpQualRow, vpThirdRow])).2 = false := by
  refine ⟨rfl, ?_, rfl, rfl, ?_⟩
  · rfl
  · rfl

/-- C5 (amended): in `talent-outreach.py` and `talent_engine.py` no single
row's failure halts the batch — append failures are caught per row, so the
sequence of append calls does not depend on the sink's behavior — and the
top-level handlers catch a missing input file and any unexpected exception,
so those two variants exit normally on every input.  `vp_scraper.py` has no
handlers and is exempt (see the counterexample). -/
theorem C5_exit_normal (sink : List Cell → Bool) (csv : Option (List Row)) :
    (mainRun_to sink csv).2.2 = true
    ∧ (mainRun_te sink csv).2.2 = true
    ∧ (mainRun_to sink csv).1 = (mainRun_to sinkOk csv).1
    ∧ (mainRun_te sink csv).1 = (mainRun_te sinkOk csv).1 := by
  refine ⟨?_, ?_, ?_, ?_⟩
  · cases csv <;> rfl
  · cases csv <;> rfl
  · rw [mainRun_to_appends, mainRun_to_appends]
  · rw [mainRun_te_appends, mainRun_te_appends]

/-- C7: every variant appends exactly one fixed 6-field row per accepted
lead, in the order `[name, linkedin_url, title, company, message,
email_or_placeholder]`: `talent-outreach.py` fills the email slot with
`Not found` and blanks a missing linkedin/title, `talent_engine.py` appends
the raw optional values and an empty email slot, and every row
`vp_scraper.py` passes to the sink is the 6-field list
`[name, linkedin, title, company, message, email or "Not found"]` built from
the values its loop extracts from some input row. -/
theorem C7_append_shape (sink : List Cell → Bool) (csv : Option (List Row))
    (svc : String → Except Unit HunterData) (gh : Cell → Option String) :
    (mainRun_to sink csv).1 =
      (acceptedLeads csv).map (fun l =>
        [Cell.str l.name, Cell.str (l.linkedin.getD ""), Cell.str (l.title.getD ""),
         Cell.str l.company,
         Cell.str ((generate_message (some l.name) l.companies).getD ""),
         Cell.str "Not found"])
    ∧ (mainRun_te sink csv).1 =
      (acceptedLeads csv).map (fun l =>
        [Cell.str l.name, optCell l.linkedin, optCell l.title,
         Cell.str l.company,
         Cell.str ((generate_message (some l.name) l.companies).getD ""),
         Cell.str ""])
    ∧ ((vpRun svc gh sink csv).1.all (fun r => r.length == 6)) = true
    ∧ (∀ r, r ∈ (vpRun svc gh sink csv).1 →
        ∃ df row c nameStr, csv = some df ∧ row ∈ df
          ∧ pyOrCell (getCellD row "companyName") (getCellD row "Company") = Cell.str c
          ∧ pyStr? (pyOrCell (getCellD row "name") (getCellD row "Name")) = some nameStr
          ∧ r = [pyOrCell (getCellD row "name") (getCellD row "Name"),
                 pyOrCell (getCellD row "linkedin") (getCellD row "LinkedIn"),
                 pyOrCell (getCellD row "title") (getCellD row "Title"),
                 Cell.str c,
                 Cell.str (vp_generate_message nameStr),
                 Cell.str (pyOrNotFound (vpEmail svc gh row c))]) := by
  refine ⟨mainRun_to_appends sink csv, mainRun_te_appends sink csv, ?_, ?_⟩
  · cases csv with
    | none => rfl
    | some df => exact vpRunRows_len svc gh sink df
  · intro r hr
    cases csv with
    | none => simp [vpRun] at hr
    | some df =>
      obtain ⟨row, hrow, hok⟩ := vpRunRows_shape hr
      obtain ⟨c, nameStr, hc, hn, hsr⟩ := vpProcessRow_shape hok
      exact ⟨df, row, c, nameStr, rfl, hrow, hc, hn, hsr⟩

set_option maxRecDepth 8192 in
theorem C7_append_shape_witness :
    ∃ df row c nameStr,
      (some [vpQualRow, vpSERow] : Option (List Row)) = some df ∧ row ∈ df
      ∧ pyOrCell (getCellD row "companyName") (getCellD row "Company") = Cell.str c
      ∧ pyStr? (pyOrCell (getCellD row "name") (getCellD row "Name")) = some nameStr
      ∧ vpQualAppendedRow =
          [pyOrCell (getCellD row "name") (getCellD row "Name"),
           pyOrCell (getCellD row "linkedin") (getCellD row "LinkedIn"),
           pyOrCell (getCellD row "title") (getCellD row "Title"),
           Cell.str c,
           Cell.str (vp_generate_message nameStr),
           Cell.str (pyOrNotFound (vpEmail svcErr ghNone row c))] :=
  (C7_append_shape sinkOk (some [vpQualRow, vpSERow]) svcErr ghNone).2.2.2
    vpQualAppendedRow (by decide)

end TalentOutreach
